import Mathlib

/-!
Shallow embedding of the Kivy starfield program (`src/starfield/app.py`).

The program keeps a flat list of per-vertex scalars (`vertices`), a static
index list (`indices`) and a list of `Star` records.  Randomness (Python's
`random()`) is modelled by explicit draw arguments in `[0,1)`: `reset` takes
the three draws it consumes, and the per-frame driver takes a stream
`rnd : ℕ → ℝ × ℝ × ℝ` supplying the draws for the star at each position.
The widget's `self.center` is modelled by the pair `(x0, y0)` passed to the
update, exactly as the source samples it once per call.
-/

namespace StarfieldApp

noncomputable section

/-- `NSTARS = 1000` -/
def NSTARS : ℕ := 1000

/-- `self.vfmt = ((b'vCenter', 2, 'float'), (b'vScale', 1, 'float'),
(b'vPosition', 2, 'float'), (b'vTexCoords0', 2, 'float'))` — we keep the
attribute names and component counts. -/
def vfmt : List (String × ℕ) :=
  [("vCenter", 2), ("vScale", 1), ("vPosition", 2), ("vTexCoords0", 2)]

/-- `self.vsize = sum(attr[1] for attr in self.vfmt)` -/
def vsize : ℕ := (vfmt.map Prod.snd).sum

/-- One star: `angle`, `distance`, `size` and the immutable `base_idx`
(`4 * i * sf.vsize` at construction). -/
structure Star where
  angle : ℝ
  distance : ℝ
  size : ℝ
  base_idx : ℕ

/-- `Star.reset`: `self.angle = 2 * math.pi * random()`,
`self.distance = 90 * random() + 10`, `self.size = 0.05 * random() + 0.05`;
the three `random()` draws are the arguments `u₁ u₂ u₃`. -/
def Star.reset (s : Star) (u₁ u₂ u₃ : ℝ) : Star :=
  { s with angle := 2 * Real.pi * u₁
           distance := 90 * u₂ + 10
           size := 0.05 * u₃ + 0.05 }

/-- `Star.iterate`: `range(self.base_idx, self.base_idx + 4 * self.sf.vsize,
self.sf.vsize)` — the 4 stride-spaced offsets of this star's vertices. -/
def Star.iterate (s : Star) : List ℕ :=
  List.range' s.base_idx 4 vsize

/-- The center computation from `Star.update`
(`x = x0 + self.distance * math.cos(self.angle)`,
`y = y0 + self.distance * math.sin(self.angle)`); the spec calls it
`computeCenter`. -/
def Star.computeCenter (s : Star) (x0 y0 : ℝ) : ℝ × ℝ :=
  (x0 + s.distance * Real.cos s.angle, y0 + s.distance * Real.sin s.angle)

/-- `self.sf.vertices[i:i + 3] = (x, y, self.size)` — write three scalars at
offsets `i, i+1, i+2`. -/
def writeTriple (vs : List ℝ) (i : ℕ) (x y z : ℝ) : List ℝ :=
  ((vs.set i x).set (i + 1) y).set (i + 2) z

/-- `Star.update`: for each of the 4 stride-spaced offsets, store
`(x, y, self.size)` into the vertex list. -/
def Star.update (s : Star) (x0 y0 : ℝ) (vs : List ℝ) : List ℝ :=
  s.iterate.foldl
    (fun acc i =>
      writeTriple acc i (s.computeCenter x0 y0).1 (s.computeCenter x0 y0).2 s.size)
    vs

/-- The per-star state advance at the top of the `update_glsl` loop:
`star.distance *= 2 * nap + 1` and `star.size += 0.25 * nap`. -/
def Star.grow (s : Star) (nap : ℝ) : Star :=
  { s with distance := s.distance * (2 * nap + 1)
           size := s.size + 0.25 * nap }

/-- The field state: the flat vertex list, the index list and the stars. -/
structure Starfield where
  vertices : List ℝ
  indices : List ℕ
  stars : List Star

/-- `Starfield.__init__` index construction: `for i in range(0, 4 * NSTARS, 4):
self.indices.extend((i, i + 1, i + 2, i + 2, i + 2, i + 3, i))`, with the
particle count a parameter `P`. -/
def mkIndices (P : ℕ) : List ℕ :=
  (List.range' 0 P 4).flatMap fun i => [i, i + 1, i + 2, i + 2, i + 2, i + 3, i]

/-- The 28 scalars appended per star by `Starfield.__init__`:
4 vertices, each `(centerX, centerY, scale, cornerX, cornerY, texU, texV)`. -/
def starQuad : List ℝ :=
  [0, 0, 1, -24, -24, 0, 1,
   0, 0, 1, 24, -24, 1, 1,
   0, 0, 1, 24, 24, 1, 0,
   0, 0, 1, -24, 24, 0, 0]

/-- `for i in range(NSTARS): self.vertices.extend((...))` with count `P`. -/
def mkVertices (P : ℕ) : List ℝ :=
  (List.range P).flatMap fun _ => starQuad

/-- `Star.__init__`: class attributes `angle = 0`, `distance = 0`,
`size = 0.1`, then `base_idx = 4 * i * sf.vsize` and `reset()` with the
draws `u`. -/
def mkStar (i : ℕ) (u : ℝ × ℝ × ℝ) : Star :=
  Star.reset { angle := 0, distance := 0, size := 0.1, base_idx := 4 * i * vsize }
    u.1 u.2.1 u.2.2

/-- `self.stars = [Star(self, i) for i in range(NSTARS)]` with count `P`;
`rnd i` supplies the draws consumed by star `i`'s construction-time reset. -/
def mkStars (P : ℕ) (rnd : ℕ → ℝ × ℝ × ℝ) : List Star :=
  (List.range P).map fun i => mkStar i (rnd i)

/-- The field after `Starfield.__init__` for particle count `P`. -/
def mkStarfield (P : ℕ) (rnd : ℕ → ℝ × ℝ × ℝ) : Starfield :=
  { vertices := mkVertices P, indices := mkIndices P, stars := mkStars P rnd }

/-- The `for star in self.stars` loop of `update_glsl`: grow the star, then
either reset it (vertex list untouched) or write its 4 vertex triples.
`k` is the position of the head star, used to index the draw stream. -/
def updateStars (nap x0 y0 maxD : ℝ) (rnd : ℕ → ℝ × ℝ × ℝ) :
    ℕ → List Star → List ℝ → List Star × List ℝ
  | _, [], vs => ([], vs)
  | k, s :: rest, vs =>
    let s1 := s.grow nap
    if s1.distance > maxD then
      let r := updateStars nap x0 y0 maxD rnd (k + 1) rest vs
      (s1.reset (rnd k).1 (rnd k).2.1 (rnd k).2.2 :: r.1, r.2)
    else
      let r := updateStars nap x0 y0 maxD rnd (k + 1) rest (s1.update x0 y0 vs)
      (s1 :: r.1, r.2)

/-- `Starfield.update_glsl(nap)`: sample the center `(x0, y0)`, compute
`max_distance = 1.1 * max(x0, y0)` once, run the per-star loop.  The final
`Mesh(...)` draw call reads the buffers and is outside the state change. -/
def Starfield.update_glsl (sf : Starfield) (nap x0 y0 : ℝ)
    (rnd : ℕ → ℝ × ℝ × ℝ) : Starfield :=
  let maxD := 1.1 * max x0 y0
  let r := updateStars nap x0 y0 maxD rnd 0 sf.stars sf.vertices
  { vertices := r.2, indices := sf.indices, stars := r.1 }

/-- Pointwise description of what one `update_glsl` call does to one star. -/
def stepStar (nap maxD : ℝ) (u : ℝ × ℝ × ℝ) (s : Star) : Star :=
  let s1 := s.grow nap
  if s1.distance > maxD then s1.reset u.1 u.2.1 u.2.2 else s1

/-- `j` is one of the 12 vertex-list offsets written by `s.update`. -/
def touchesIdx (s : Star) (j : ℕ) : Prop :=
  ∃ kk, kk < 4 ∧ ∃ t, t < 3 ∧ j = s.base_idx + kk * vsize + t

/-- The field states reachable from construction: the vertex list has the
right length and star `m` keeps `base_idx = 4 * m * vsize`. -/
def WellFormed (sf : Starfield) : Prop :=
  sf.vertices.length = 4 * sf.stars.length * vsize ∧
  ∀ m s, sf.stars[m]? = some s → s.base_idx = 4 * m * vsize

/-- The one-particle field of the end-to-end scenario: construction-time
buffers for `P = 1` and the star forced to `angle = π/2`, `distance = 40`,
`size = 0.1`. -/
def sf9 : Starfield :=
  Starfield.mk (mkVertices 1) (mkIndices 1) [Star.mk (Real.pi / 2) 40 0.1 0]

/-- Iterated frames: `ps n` packs `(nap, x0, y0, rnd)` for frame `n`. -/
def iterUpdate (sf : Starfield) (ps : ℕ → ℝ × ℝ × ℝ × (ℕ → ℝ × ℝ × ℝ)) :
    ℕ → Starfield
  | 0 => sf
  | n + 1 =>
    (iterUpdate sf ps n).update_glsl (ps n).1 (ps n).2.1 (ps n).2.2.1 (ps n).2.2.2

/-! ### Lemmas about single writes -/

theorem vsize_eq : vsize = 7 := rfl

theorem length_writeTriple (vs : List ℝ) (i : ℕ) (x y z : ℝ) :
    (writeTriple vs i x y z).length = vs.length := by
  simp [writeTriple]

theorem getElem?_writeTriple_ne {vs : List ℝ} {i j : ℕ} {x y z : ℝ}
    (h0 : j ≠ i) (h1 : j ≠ i + 1) (h2 : j ≠ i + 2) :
    (writeTriple vs i x y z)[j]? = vs[j]? := by
  unfold writeTriple
  rw [List.getElem?_set_ne (Ne.symm h2), List.getElem?_set_ne (Ne.symm h1),
    List.getElem?_set_ne (Ne.symm h0)]

theorem getElem?_writeTriple_self {vs : List ℝ} {i : ℕ} {x y z : ℝ}
    (h : i + 2 < vs.length) :
    (writeTriple vs i x y z)[i]? = some x ∧
    (writeTriple vs i x y z)[i + 1]? = some y ∧
    (writeTriple vs i x y z)[i + 2]? = some z := by
  unfold writeTriple
  refine ⟨?_, ?_, ?_⟩
  · rw [List.getElem?_set_ne (by omega), List.getElem?_set_ne (by omega)]
    exact List.getElem?_set_eq_of_lt x (by omega)
  · rw [List.getElem?_set_ne (by omega)]
    exact List.getElem?_set_eq_of_lt y (by rw [List.length_set]; omega)
  · exact List.getElem?_set_eq_of_lt z (by rw [List.length_set, List.length_set]; omega)

/-! ### Lemmas about one star's update -/

theorem Star.update_eq (s : Star) (x0 y0 : ℝ) (vs : List ℝ) :
    s.update x0 y0 vs =
      writeTriple (writeTriple (writeTriple (writeTriple vs s.base_idx
        (s.computeCenter x0 y0).1 (s.computeCenter x0 y0).2 s.size)
        (s.base_idx + vsize)
        (s.computeCenter x0 y0).1 (s.computeCenter x0 y0).2 s.size)
        (s.base_idx + vsize + vsize)
        (s.computeCenter x0 y0).1 (s.computeCenter x0 y0).2 s.size)
        (s.base_idx + vsize + vsize + vsize)
        (s.computeCenter x0 y0).1 (s.computeCenter x0 y0).2 s.size := by
  simp [Star.update, Star.iterate, List.range']

theorem Star.length_update (s : Star) (x0 y0 : ℝ) (vs : List ℝ) :
    (s.update x0 y0 vs).length = vs.length := by
  rw [Star.update_eq]
  simp [length_writeTriple]

theorem Star.getElem?_update_ne (s : Star) (x0 y0 : ℝ) (vs : List ℝ) (j : ℕ)
    (h : ¬ touchesIdx s j) : (s.update x0 y0 vs)[j]? = vs[j]? := by
  have H : ∀ kk t : ℕ, kk < 4 → t < 3 → j ≠ s.base_idx + kk * 7 + t := by
    intro kk t hkk ht hj
    exact h ⟨kk, hkk, t, ht, by rw [vsize_eq]; exact hj⟩
  have h00 := H 0 0 (by omega) (by omega)
  have h01 := H 0 1 (by omega) (by omega)
  have h02 := H 0 2 (by omega) (by omega)
  have h10 := H 1 0 (by omega) (by omega)
  have h11 := H 1 1 (by omega) (by omega)
  have h12 := H 1 2 (by omega) (by omega)
  have h20 := H 2 0 (by omega) (by omega)
  have h21 := H 2 1 (by omega) (by omega)
  have h22 := H 2 2 (by omega) (by omega)
  have h30 := H 3 0 (by omega) (by omega)
  have h31 := H 3 1 (by omega) (by omega)
  have h32 := H 3 2 (by omega) (by omega)
  rw [Star.update_eq, vsize_eq]
  rw [getElem?_writeTriple_ne (by omega) (by omega) (by omega),
    getElem?_writeTriple_ne (by omega) (by omega) (by omega),
    getElem?_writeTriple_ne (by omega) (by omega) (by omega),
    getElem?_writeTriple_ne (by omega) (by omega) (by omega)]

theorem Star.getElem?_update_touched (s : Star) (x0 y0 : ℝ) (vs : List ℝ)
    (hlen : s.base_idx + 4 * vsize ≤ vs.length) (kk : ℕ) (hkk : kk < 4) :
    (s.update x0 y0 vs)[s.base_idx + kk * vsize]? = some (s.computeCenter x0 y0).1 ∧
    (s.update x0 y0 vs)[s.base_idx + kk * vsize + 1]? = some (s.computeCenter x0 y0).2 ∧
    (s.update x0 y0 vs)[s.base_idx + kk * vsize + 2]? = some s.size := by
  rw [vsize_eq] at hlen
  rw [Star.update_eq, vsize_eq]
  interval_cases kk
  · simp only [Nat.zero_mul, Nat.add_zero]
    refine ⟨?_, ?_, ?_⟩
    · rw [getElem?_writeTriple_ne (by omega) (by omega) (by omega),
        getElem?_writeTriple_ne (by omega) (by omega) (by omega),
        getElem?_writeTriple_ne (by omega) (by omega) (by omega)]
      exact (getElem?_writeTriple_self (by omega)).1
    · rw [getElem?_writeTriple_ne (by omega) (by omega) (by omega),
        getElem?_writeTriple_ne (by omega) (by omega) (by omega),
        getElem?_writeTriple_ne (by omega) (by omega) (by omega)]
      exact (getElem?_writeTriple_self (by omega)).2.1
    · rw [getElem?_writeTriple_ne (by omega) (by omega) (by omega),
        getElem?_writeTriple_ne (by omega) (by omega) (by omega),
        getElem?_writeTriple_ne (by omega) (by omega) (by omega)]
      exact (getElem?_writeTriple_self (by omega)).2.2
  · simp only [Nat.one_mul]
    have hl : s.base_idx + 7 + 2 < (writeTriple vs s.base_idx
        (s.computeCenter x0 y0).1 (s.computeCenter x0 y0).2 s.size).length := by
      rw [length_writeTriple]; omega
    refine ⟨?_, ?_, ?_⟩
    · rw [getElem?_writeTriple_ne (by omega) (by omega) (by omega),
        getElem?_writeTriple_ne (by omega) (by omega) (by omega)]
      exact (getElem?_writeTriple_self hl).1
    · rw [getElem?_writeTriple_ne (by omega) (by omega) (by omega),
        getElem?_writeTriple_ne (by omega) (by omega) (by omega)]
      exact (getElem?_writeTriple_self hl).2.1
    · rw [getElem?_writeTriple_ne (by omega) (by omega) (by omega),
        getElem?_writeTriple_ne (by omega) (by omega) (by omega)]
      exact (getElem?_writeTriple_self hl).2.2
  · have e2 : s.base_idx + 2 * 7 = s.base_idx + 7 + 7 := by omega
    rw [e2]
    have hl : s.base_idx + 7 + 7 + 2 < (writeTriple (writeTriple vs s.base_idx
        (s.computeCenter x0 y0).1 (s.computeCenter x0 y0).2 s.size) (s.base_idx + 7)
        (s.computeCenter x0 y0).1 (s.computeCenter x0 y0).2 s.size).length := by
      rw [length_writeTriple, length_writeTriple]; omega
    refine ⟨?_, ?_, ?_⟩
    · rw [getElem?_writeTriple_ne (by omega) (by omega) (by omega)]
      exact (getElem?_writeTriple_self hl).1
    · rw [getElem?_writeTriple_ne (by omega) (by omega) (by omega)]
      exact (getElem?_writeTriple_self hl).2.1
    · rw [getElem?_writeTriple_ne (by omega) (by omega) (by omega)]
      exact (getElem?_writeTriple_self hl).2.2
  · have e3 : s.base_idx + 3 * 7 = s.base_idx + 7 + 7 + 7 := by omega
    rw [e3]
    have hl : s.base_idx + 7 + 7 + 7 + 2 < (writeTriple (writeTriple (writeTriple vs
        s.base_idx (s.computeCenter x0 y0).1 (s.computeCenter x0 y0).2 s.size)
        (s.base_idx + 7) (s.computeCenter x0 y0).1 (s.computeCenter x0 y0).2 s.size)
        (s.base_idx + 7 + 7)
        (s.computeCenter x0 y0).1 (s.computeCenter x0 y0).2 s.size).length := by
      rw [length_writeTriple, length_writeTriple, length_writeTriple]; omega
    exact ⟨(getElem?_writeTriple_self hl).1, (getElem?_writeTriple_self hl).2.1,
      (getElem?_writeTriple_self hl).2.2⟩

/-! ### Lemmas about the per-frame loop -/

theorem updateStars_nil (nap x0 y0 maxD : ℝ) (rnd : ℕ → ℝ × ℝ × ℝ) (k : ℕ)
    (vs : List ℝ) : updateStars nap x0 y0 maxD rnd k [] vs = ([], vs) := rfl

theorem updateStars_cons (nap x0 y0 maxD : ℝ) (rnd : ℕ → ℝ × ℝ × ℝ) (k : ℕ)
    (s : Star) (rest : List Star) (vs : List ℝ) :
    updateStars nap x0 y0 maxD rnd k (s :: rest) vs =
      if (s.grow nap).distance > maxD then
        ((s.grow nap).reset (rnd k).1 (rnd k).2.1 (rnd k).2.2 ::
            (updateStars nap x0 y0 maxD rnd (k + 1) rest vs).1,
          (updateStars nap x0 y0 maxD rnd (k + 1) rest vs).2)
      else
        (s.grow nap ::
            (updateStars nap x0 y0 maxD rnd (k + 1) rest
              ((s.grow nap).update x0 y0 vs)).1,
          (updateStars nap x0 y0 maxD rnd (k + 1) rest
            ((s.grow nap).update x0 y0 vs)).2) := by
  rw [updateStars]

theorem updateStars_fst_length (nap x0 y0 maxD : ℝ) (rnd : ℕ → ℝ × ℝ × ℝ)
    (ss : List Star) : ∀ (k : ℕ) (vs : List ℝ),
    (updateStars nap x0 y0 maxD rnd k ss vs).1.length = ss.length := by
  induction ss with
  | nil => intro k vs; rw [updateStars_nil]
  | cons s rest ih =>
    intro k vs
    rw [updateStars_cons]
    by_cases h : (s.grow nap).distance > maxD
    · rw [if_pos h]; simp [ih]
    · rw [if_neg h]; simp [ih]

theorem updateStars_snd_length (nap x0 y0 maxD : ℝ) (rnd : ℕ → ℝ × ℝ × ℝ)
    (ss : List Star) : ∀ (k : ℕ) (vs : List ℝ),
    (updateStars nap x0 y0 maxD rnd k ss vs).2.length = vs.length := by
  induction ss with
  | nil => intro k vs; rw [updateStars_nil]
  | cons s rest ih =>
    intro k vs
    rw [updateStars_cons]
    by_cases h : (s.grow nap).distance > maxD
    · rw [if_pos h]; exact ih (k + 1) vs
    · rw [if_neg h]
      rw [ih (k + 1) ((s.grow nap).update x0 y0 vs)]
      exact Star.length_update (s.grow nap) x0 y0 vs

theorem updateStars_fst_getElem? (nap x0 y0 maxD : ℝ) (rnd : ℕ → ℝ × ℝ × ℝ)
    (ss : List Star) : ∀ (k m : ℕ) (vs : List ℝ),
    (updateStars nap x0 y0 maxD rnd k ss vs).1[m]? =
      (ss[m]?).map (stepStar nap maxD (rnd (k + m))) := by
  induction ss with
  | nil => intro k m vs; rw [updateStars_nil]; simp
  | cons s rest ih =>
    intro k m vs
    rw [updateStars_cons]
    by_cases h : (s.grow nap).distance > maxD
    · rw [if_pos h]
      cases m with
      | zero => simp [stepStar, h]
      | succ m =>
        simp only [List.getElem?_cons_succ]
        rw [ih (k + 1) m vs]
        have e : k + 1 + m = k + (m + 1) := by omega
        rw [e]
    · rw [if_neg h]
      cases m with
      | zero => simp [stepStar, h]
      | succ m =>
        simp only [List.getElem?_cons_succ]
        rw [ih (k + 1) m ((s.grow nap).update x0 y0 vs)]
        have e : k + 1 + m = k + (m + 1) := by omega
        rw [e]

theorem updateStars_snd_getElem?_ne (nap x0 y0 maxD : ℝ) (rnd : ℕ → ℝ × ℝ × ℝ)
    (j : ℕ) (ss : List Star) : ∀ (k : ℕ) (vs : List ℝ),
    (∀ s ∈ ss, ¬ touchesIdx s j) →
    (updateStars nap x0 y0 maxD rnd k ss vs).2[j]? = vs[j]? := by
  induction ss with
  | nil => intro k vs _; rw [updateStars_nil]
  | cons s rest ih =>
    intro k vs hnt
    rw [updateStars_cons]
    by_cases h : (s.grow nap).distance > maxD
    · rw [if_pos h]
      exact ih (k + 1) vs fun s' hs' => hnt s' (List.mem_cons_of_mem s hs')
    · rw [if_neg h]
      rw [ih (k + 1) ((s.grow nap).update x0 y0 vs)
        fun s' hs' => hnt s' (List.mem_cons_of_mem s hs')]
      exact Star.getElem?_update_ne (s.grow nap) x0 y0 vs j
        (hnt s (List.mem_cons_self s rest))

theorem updateStars_snd_getElem?_slot (nap x0 y0 maxD : ℝ) (rnd : ℕ → ℝ × ℝ × ℝ)
    (ss : List Star) : ∀ (k m : ℕ) (vs : List ℝ) (s : Star),
    ss[m]? = some s →
    ¬ (s.grow nap).distance > maxD →
    (∀ m' s', m < m' → ss[m']? = some s' → ∀ j, touchesIdx s j → ¬ touchesIdx s' j) →
    s.base_idx + 4 * vsize ≤ vs.length →
    ∀ kk, kk < 4 →
    (updateStars nap x0 y0 maxD rnd k ss vs).2[s.base_idx + kk * vsize]? =
        some ((s.grow nap).computeCenter x0 y0).1 ∧
    (updateStars nap x0 y0 maxD rnd k ss vs).2[s.base_idx + kk * vsize + 1]? =
        some ((s.grow nap).computeCenter x0 y0).2 ∧
    (updateStars nap x0 y0 maxD rnd k ss vs).2[s.base_idx + kk * vsize + 2]? =
        some (s.grow nap).size := by
  induction ss with
  | nil => intro k m vs s hm; simp at hm
  | cons s0 rest ih =>
    intro k m vs s hm hnr hdisj hlen kk hkk
    cases m with
    | zero =>
      simp only [List.getElem?_cons_zero, Option.some.injEq] at hm
      subst hm
      rw [updateStars_cons, if_neg hnr]
      have hrest : ∀ t, t < 3 → ∀ s' ∈ rest,
          ¬ touchesIdx s' (s0.base_idx + kk * vsize + t) := by
        intro t ht s' hs'
        obtain ⟨n, hn⟩ := List.getElem?_of_mem hs'
        exact hdisj (n + 1) s' (by omega) (by simpa using hn)
          (s0.base_idx + kk * vsize + t) ⟨kk, hkk, t, ht, rfl⟩
      have htouch := Star.getElem?_update_touched (s0.grow nap) x0 y0 vs
        (by simpa [Star.grow] using hlen) kk hkk
      refine ⟨?_, ?_, ?_⟩
      · rw [updateStars_snd_getElem?_ne nap x0 y0 maxD rnd _ rest (k + 1) _
          (by intro s' hs'; simpa using hrest 0 (by omega) s' hs')]
        simpa using htouch.1
      · rw [updateStars_snd_getElem?_ne nap x0 y0 maxD rnd _ rest (k + 1) _
          (hrest 1 (by omega))]
        exact htouch.2.1
      · rw [updateStars_snd_getElem?_ne nap x0 y0 maxD rnd _ rest (k + 1) _
          (hrest 2 (by omega))]
        exact htouch.2.2
    | succ m =>
      simp only [List.getElem?_cons_succ] at hm
      rw [updateStars_cons]
      have hdisj' : ∀ m' s', m < m' → rest[m']? = some s' →
          ∀ j, touchesIdx s j → ¬ touchesIdx s' j := by
        intro m' s' hmm' hm' j htj
        exact hdisj (m' + 1) s' (by omega) (by simpa using hm') j htj
      by_cases h : (s0.grow nap).distance > maxD
      · rw [if_pos h]
        exact ih (k + 1) m vs s hm hnr hdisj' hlen kk hkk
      · rw [if_neg h]
        exact ih (k + 1) m ((s0.grow nap).update x0 y0 vs) s hm hnr hdisj'
          (by rw [Star.length_update]; exact hlen) kk hkk

theorem updateStars_snd_getElem?_frozen (nap x0 y0 maxD : ℝ)
    (rnd : ℕ → ℝ × ℝ × ℝ) (ss : List Star) : ∀ (k m : ℕ) (vs : List ℝ) (s : Star),
    ss[m]? = some s →
    (∀ m' s', m' ≠ m → ss[m']? = some s' → ∀ j, touchesIdx s j → ¬ touchesIdx s' j) →
    (s.grow nap).distance > maxD →
    ∀ j, touchesIdx s j →
    (updateStars nap x0 y0 maxD rnd k ss vs).2[j]? = vs[j]? := by
  induction ss with
  | nil => intro k m vs s hm; simp at hm
  | cons s0 rest ih =>
    intro k m vs s hm hdisj hr j htj
    cases m with
    | zero =>
      simp only [List.getElem?_cons_zero, Option.some.injEq] at hm
      subst hm
      rw [updateStars_cons, if_pos hr]
      refine updateStars_snd_getElem?_ne nap x0 y0 maxD rnd j rest (k + 1) vs ?_
      intro s' hs'
      obtain ⟨n, hn⟩ := List.getElem?_of_mem hs'
      exact hdisj (n + 1) s' (by omega) (by simpa using hn) j htj
    | succ m =>
      simp only [List.getElem?_cons_succ] at hm
      rw [updateStars_cons]
      have hdisj' : ∀ m' s', m' ≠ m → rest[m']? = some s' →
          ∀ jj, touchesIdx s jj → ¬ touchesIdx s' jj := by
        intro m' s' hmm' hm' jj htjj
        exact hdisj (m' + 1) s' (by omega) (by simpa using hm') jj htjj
      have h0 : ¬ touchesIdx s0 j :=
        hdisj 0 s0 (by omega) (by simp) j htj
      by_cases h : (s0.grow nap).distance > maxD
      · rw [if_pos h]
        exact ih (k + 1) m vs s hm hdisj' hr j htj
      · rw [if_neg h]
        rw [ih (k + 1) m ((s0.grow nap).update x0 y0 vs) s hm hdisj' hr j htj]
        exact Star.getElem?_update_ne (s0.grow nap) x0 y0 vs j h0

/-! ### Top-level frame lemmas -/

theorem stepStar_base_idx (nap maxD : ℝ) (u : ℝ × ℝ × ℝ) (s : Star) :
    (stepStar nap maxD u s).base_idx = s.base_idx := by
  simp only [stepStar]
  split <;> rfl

theorem touchesIdx_disjoint {s s' : Star} {m m' : ℕ}
    (hs : s.base_idx = 4 * m * vsize) (hs' : s'.base_idx = 4 * m' * vsize)
    (hne : m ≠ m') (j : ℕ) (ht : touchesIdx s j) : ¬ touchesIdx s' j := by
  obtain ⟨kk, hkk, t, ht3, rfl⟩ := ht
  rintro ⟨kk', hkk', t', ht3', he⟩
  rw [hs, hs', vsize_eq] at he
  rw [hs, vsize_eq] at *
  omega

theorem lt_length_of_getElem?_some {α : Type} {l : List α} {m : ℕ} {a : α}
    (h : l[m]? = some a) : m < l.length := by
  by_contra hge
  rw [List.getElem?_eq_none (by omega)] at h
  exact Option.noConfusion h

theorem update_glsl_stars_getElem? (sf : Starfield) (nap x0 y0 : ℝ)
    (rnd : ℕ → ℝ × ℝ × ℝ) (m : ℕ) :
    (sf.update_glsl nap x0 y0 rnd).stars[m]? =
      (sf.stars[m]?).map (stepStar nap (1.1 * max x0 y0) (rnd m)) := by
  unfold Starfield.update_glsl
  simpa using
    updateStars_fst_getElem? nap x0 y0 (1.1 * max x0 y0) rnd sf.stars 0 m sf.vertices

theorem update_glsl_indices (sf : Starfield) (nap x0 y0 : ℝ)
    (rnd : ℕ → ℝ × ℝ × ℝ) : (sf.update_glsl nap x0 y0 rnd).indices = sf.indices :=
  rfl

theorem update_glsl_vertices_length (sf : Starfield) (nap x0 y0 : ℝ)
    (rnd : ℕ → ℝ × ℝ × ℝ) :
    (sf.update_glsl nap x0 y0 rnd).vertices.length = sf.vertices.length :=
  updateStars_snd_length nap x0 y0 (1.1 * max x0 y0) rnd sf.stars 0 sf.vertices

theorem update_glsl_stars_length (sf : Starfield) (nap x0 y0 : ℝ)
    (rnd : ℕ → ℝ × ℝ × ℝ) :
    (sf.update_glsl nap x0 y0 rnd).stars.length = sf.stars.length :=
  updateStars_fst_length nap x0 y0 (1.1 * max x0 y0) rnd sf.stars 0 sf.vertices

theorem update_glsl_wf (sf : Starfield) (nap x0 y0 : ℝ) (rnd : ℕ → ℝ × ℝ × ℝ)
    (hwf : WellFormed sf) : WellFormed (sf.update_glsl nap x0 y0 rnd) := by
  constructor
  · rw [update_glsl_vertices_length, update_glsl_stars_length]
    exact hwf.1
  · intro m s hm
    rw [update_glsl_stars_getElem?] at hm
    cases h : sf.stars[m]? with
    | none => rw [h] at hm; exact Option.noConfusion hm
    | some s0 =>
      rw [h] at hm
      simp only [Option.map_some', Option.some.injEq] at hm
      rw [← hm, stepStar_base_idx]
      exact hwf.2 m s0 h

theorem update_glsl_slot (sf : Starfield) (nap x0 y0 : ℝ) (rnd : ℕ → ℝ × ℝ × ℝ)
    (hwf : WellFormed sf) (m : ℕ) (s : Star) (hm : sf.stars[m]? = some s)
    (hnr : ¬ (s.grow nap).distance > 1.1 * max x0 y0) (kk : ℕ) (hkk : kk < 4) :
    (sf.update_glsl nap x0 y0 rnd).vertices[s.base_idx + kk * vsize]? =
        some ((s.grow nap).computeCenter x0 y0).1 ∧
    (sf.update_glsl nap x0 y0 rnd).vertices[s.base_idx + kk * vsize + 1]? =
        some ((s.grow nap).computeCenter x0 y0).2 ∧
    (sf.update_glsl nap x0 y0 rnd).vertices[s.base_idx + kk * vsize + 2]? =
        some (s.grow nap).size := by
  have hml : m < sf.stars.length := lt_length_of_getElem?_some hm
  have hlen : s.base_idx + 4 * vsize ≤ sf.vertices.length := by
    rw [hwf.2 m s hm, hwf.1, vsize_eq]
    omega
  exact updateStars_snd_getElem?_slot nap x0 y0 (1.1 * max x0 y0) rnd sf.stars
    0 m sf.vertices s hm hnr
    (fun m' s' hmm' hm' j htj =>
      touchesIdx_disjoint (hwf.2 m s hm) (hwf.2 m' s' hm') (by omega) j htj)
    hlen kk hkk

theorem update_glsl_frozen (sf : Starfield) (nap x0 y0 : ℝ) (rnd : ℕ → ℝ × ℝ × ℝ)
    (hwf : WellFormed sf) (m : ℕ) (s : Star) (hm : sf.stars[m]? = some s)
    (hr : (s.grow nap).distance > 1.1 * max x0 y0) (j : ℕ) (htj : touchesIdx s j) :
    (sf.update_glsl nap x0 y0 rnd).vertices[j]? = sf.vertices[j]? :=
  updateStars_snd_getElem?_frozen nap x0 y0 (1.1 * max x0 y0) rnd sf.stars
    0 m sf.vertices s hm
    (fun m' s' hmm' hm' jj htjj =>
      touchesIdx_disjoint (hwf.2 m s hm) (hwf.2 m' s' hm') (by omega) jj htjj)
    hr j htj

theorem not_touchesIdx_static {s : Star} {j : ℕ} (hb : s.base_idx % vsize = 0)
    (hj : 3 ≤ j % vsize) : ¬ touchesIdx s j := by
  rintro ⟨kk, hkk, t, ht, rfl⟩
  rw [vsize_eq] at hb hj
  omega

theorem update_glsl_static (sf : Starfield) (nap x0 y0 : ℝ)
    (rnd : ℕ → ℝ × ℝ × ℝ) (hwf : WellFormed sf) (j : ℕ) (hj : 3 ≤ j % vsize) :
    (sf.update_glsl nap x0 y0 rnd).vertices[j]? = sf.vertices[j]? := by
  refine updateStars_snd_getElem?_ne nap x0 y0 (1.1 * max x0 y0) rnd j sf.stars
    0 sf.vertices ?_
  intro s hs
  obtain ⟨n, hn⟩ := List.getElem?_of_mem hs
  refine not_touchesIdx_static ?_ hj
  rw [hwf.2 n s hn, vsize_eq]
  omega

/-! ### Construction lemmas -/

theorem mkStars_length (P : ℕ) (rnd : ℕ → ℝ × ℝ × ℝ) :
    (mkStars P rnd).length = P := by
  simp [mkStars]

theorem mkStars_getElem? (P : ℕ) (rnd : ℕ → ℝ × ℝ × ℝ) (m : ℕ) (h : m < P) :
    (mkStars P rnd)[m]? = some (mkStar m (rnd m)) := by
  simp [mkStars, List.getElem?_range h]

theorem mkStar_base_idx (i : ℕ) (u : ℝ × ℝ × ℝ) :
    (mkStar i u).base_idx = 4 * i * vsize := rfl

theorem starQuad_length : starQuad.length = 4 * vsize := rfl

theorem mkVertices_succ (P : ℕ) : mkVertices (P + 1) = mkVertices P ++ starQuad := by
  simp [mkVertices, List.range_succ]

theorem mkVertices_length (P : ℕ) : (mkVertices P).length = 4 * P * vsize := by
  induction P with
  | zero => rfl
  | succ P ih =>
    rw [mkVertices_succ, List.length_append, ih, starQuad_length, vsize_eq]
    omega

theorem mkStarfield_wf (P : ℕ) (rnd : ℕ → ℝ × ℝ × ℝ) :
    WellFormed (mkStarfield P rnd) := by
  constructor
  · show (mkVertices P).length = 4 * (mkStars P rnd).length * vsize
    rw [mkVertices_length, mkStars_length]
  · intro m s hm
    have hml : m < P := by
      have h2 := lt_length_of_getElem?_some hm
      rw [show (mkStarfield P rnd).stars = mkStars P rnd from rfl,
        mkStars_length] at h2
      exact h2
    rw [show (mkStarfield P rnd).stars = mkStars P rnd from rfl,
      mkStars_getElem? P rnd m hml] at hm
    simp only [Option.some.injEq] at hm
    rw [← hm]
    rfl

theorem mkVertices_slice (P k : ℕ) (h : k < P) :
    ((mkVertices P).drop (4 * k * vsize)).take (4 * vsize) = starQuad := by
  induction P with
  | zero => omega
  | succ P ih =>
    rw [mkVertices_succ]
    by_cases hk : k < P
    · rw [List.drop_append_of_le_length (by rw [mkVertices_length, vsize_eq]; omega),
        List.take_append_of_le_length
          (by rw [List.length_drop, mkVertices_length, vsize_eq]; omega)]
      exact ih hk
    · have hkP : k = P := by omega
      subst hkP
      rw [show 4 * k * vsize = (mkVertices k).length from (mkVertices_length k).symm,
        List.drop_left,
        show (4 : ℕ) * vsize = starQuad.length from starQuad_length.symm,
        List.take_length]

/-! ### Index-list lemmas -/

theorem mkIndices_succ (P : ℕ) :
    mkIndices (P + 1) = mkIndices P ++
      [4 * P, 4 * P + 1, 4 * P + 2, 4 * P + 2, 4 * P + 2, 4 * P + 3, 4 * P] := by
  have h : List.range' 0 (P + 1) 4 = List.range' 0 P 4 ++ [4 * P] := by
    rw [List.range'_concat]
    simp [Nat.mul_comm]
  simp [mkIndices, h]

theorem mkIndices_length (P : ℕ) : (mkIndices P).length = 7 * P := by
  induction P with
  | zero => rfl
  | succ P ih =>
    rw [mkIndices_succ, List.length_append, ih]
    simp
    omega

theorem mkIndices_mem_lt (P : ℕ) (v : ℕ) (hv : v ∈ mkIndices P) : v < 4 * P := by
  induction P with
  | zero => simp [mkIndices] at hv
  | succ P ih =>
    rw [mkIndices_succ, List.mem_append] at hv
    rcases hv with h | h
    · have := ih h
      omega
    · simp only [List.mem_cons, List.not_mem_nil, or_false] at h
      rcases h with h | h | h | h | h | h | h <;> omega

theorem mkIndices_slice (P i : ℕ) (h : i < P) :
    ((mkIndices P).drop (7 * i)).take 7 =
      [4 * i, 4 * i + 1, 4 * i + 2, 4 * i + 2, 4 * i + 2, 4 * i + 3, 4 * i] := by
  induction P with
  | zero => omega
  | succ P ih =>
    rw [mkIndices_succ]
    by_cases hi : i < P
    · rw [List.drop_append_of_le_length (by rw [mkIndices_length]; omega),
        List.take_append_of_le_length
          (by rw [List.length_drop, mkIndices_length]; omega)]
      exact ih hi
    · have hiP : i = P := by omega
      subst hiP
      rw [show 7 * i = (mkIndices i).length from (mkIndices_length i).symm,
        List.drop_left]
      rfl

theorem iterUpdate_wf (sf : Starfield) (ps : ℕ → ℝ × ℝ × ℝ × (ℕ → ℝ × ℝ × ℝ))
    (N : ℕ) (hwf : WellFormed sf) : WellFormed (iterUpdate sf ps N) := by
  induction N with
  | zero => exact hwf
  | succ N ih => exact update_glsl_wf _ _ _ _ _ ih

theorem wf_single (s : Star) (h : s.base_idx = 0) :
    WellFormed (Starfield.mk (mkVertices 1) (mkIndices 1) [s]) := by
  constructor
  · exact mkVertices_length 1
  · intro m s' hm
    cases m with
    | zero =>
      simp only [List.getElem?_cons_zero, Option.some.injEq] at hm
      rw [← hm, h, vsize_eq]
    | succ n => simp at hm

/-! ### Claims -/

/-- C5: the index list built at construction for particle count `P` is the
concatenation, for particle `i < P` with `base = 4*i`, of the 7 indices
`(base, base+1, base+2, base+2, base+2, base+3, base)`; its length is `7*P`,
every value is `< 4*P`, `update_glsl` never changes it, and for `P = 2` it
equals `[0,1,2,2,2,3,0, 4,5,6,6,6,7,4]`. -/
theorem C5_index_topology (P : ℕ) :
    (∀ rnd : ℕ → ℝ × ℝ × ℝ, (mkStarfield P rnd).indices = mkIndices P) ∧
    (∀ i, i < P → ((mkIndices P).drop (7 * i)).take 7 =
      [4 * i, 4 * i + 1, 4 * i + 2, 4 * i + 2, 4 * i + 2, 4 * i + 3, 4 * i]) ∧
    (mkIndices P).length = 7 * P ∧
    (∀ v, v ∈ mkIndices P → v < 4 * P) ∧
    (∀ (sf : Starfield) (nap x0 y0 : ℝ) (rnd : ℕ → ℝ × ℝ × ℝ),
      (sf.update_glsl nap x0 y0 rnd).indices = sf.indices) ∧
    mkIndices 2 = [0, 1, 2, 2, 2, 3, 0, 4, 5, 6, 6, 6, 7, 4] :=
  ⟨fun _ => rfl, fun i hi => mkIndices_slice P i hi, mkIndices_length P,
    fun v hv => mkIndices_mem_lt P v hv, fun _ _ _ _ _ => rfl, rfl⟩

/-- Witness for C5 at `P = 2`, particle `i = 1` and value `v = 7`. -/
theorem C5_index_topology_w :
    ((1 : ℕ) < 2 ∧ ((mkIndices 2).drop (7 * 1)).take 7 =
      [4 * 1, 4 * 1 + 1, 4 * 1 + 2, 4 * 1 + 2, 4 * 1 + 2, 4 * 1 + 3, 4 * 1]) ∧
    ((7 : ℕ) ∈ mkIndices 2 ∧ 7 < 4 * 2) :=
  ⟨⟨by norm_num, (C5_index_topology 2).2.1 1 (by norm_num)⟩,
    ⟨by decide, (C5_index_topology 2).2.2.2.1 7 (by decide)⟩⟩

/-- C6: the vertex list built at construction has length `4*P*vsize` and
consists, per particle, of 4 vertices with dynamic attributes `(0, 0, 1)` and
static corner/texcoord pairs `(-24,-24)/(0,1)`, `(24,-24)/(1,1)`,
`(24,24)/(1,0)`, `(-24,24)/(0,0)`, in that vertex order. -/
theorem C6_vertex_layout (P : ℕ) :
    (∀ rnd : ℕ → ℝ × ℝ × ℝ, (mkStarfield P rnd).vertices = mkVertices P) ∧
    (mkVertices P).length = 4 * P * vsize ∧
    ∀ k, k < P → ((mkVertices P).drop (4 * k * vsize)).take (4 * vsize) =
      [0, 0, 1, -24, -24, 0, 1,
       0, 0, 1, 24, -24, 1, 1,
       0, 0, 1, 24, 24, 1, 0,
       0, 0, 1, -24, 24, 0, 0] :=
  ⟨fun _ => rfl, mkVertices_length P, fun k hk => mkVertices_slice P k hk⟩

/-- Witness for C6 at `P = 1`, particle `k = 0`. -/
theorem C6_vertex_layout_w :
    (0 : ℕ) < 1 ∧ ((mkVertices 1).drop (4 * 0 * vsize)).take (4 * vsize) =
      [0, 0, 1, -24, -24, 0, 1,
       0, 0, 1, 24, -24, 1, 1,
       0, 0, 1, 24, 24, 1, 0,
       0, 0, 1, -24, 24, 0, 0] :=
  ⟨by norm_num, (C6_vertex_layout 1).2.2 0 (by norm_num)⟩

/-- C7: `reset` with draws `u₁, u₂, u₃ ∈ [0,1)` sets `angle = 2π·u₁ ∈ [0, 2π)`,
`distance = 90·u₂ + 10 ∈ [10, 100)` and `size = 0.05·u₃ + 0.05 ∈ [0.05, 0.10)`,
and modifies nothing else (in particular `base_idx` is unchanged; `reset`
never writes the buffers, which is visible in `updateStars`, where its branch
returns the vertex list unchanged). -/
theorem C7_reset_ranges (s : Star) (u₁ u₂ u₃ : ℝ)
    (h₁ : 0 ≤ u₁ ∧ u₁ < 1) (h₂ : 0 ≤ u₂ ∧ u₂ < 1) (h₃ : 0 ≤ u₃ ∧ u₃ < 1) :
    (s.reset u₁ u₂ u₃).angle = 2 * Real.pi * u₁ ∧
    (0 ≤ (s.reset u₁ u₂ u₃).angle ∧ (s.reset u₁ u₂ u₃).angle < 2 * Real.pi) ∧
    (s.reset u₁ u₂ u₃).distance = 90 * u₂ + 10 ∧
    (10 ≤ (s.reset u₁ u₂ u₃).distance ∧ (s.reset u₁ u₂ u₃).distance < 100) ∧
    (s.reset u₁ u₂ u₃).size = 0.05 * u₃ + 0.05 ∧
    (0.05 ≤ (s.reset u₁ u₂ u₃).size ∧ (s.reset u₁ u₂ u₃).size < 0.10) ∧
    (s.reset u₁ u₂ u₃).base_idx = s.base_idx := by
  have ha : (s.reset u₁ u₂ u₃).angle = 2 * Real.pi * u₁ := rfl
  have hd : (s.reset u₁ u₂ u₃).distance = 90 * u₂ + 10 := rfl
  have hz : (s.reset u₁ u₂ u₃).size = 0.05 * u₃ + 0.05 := rfl
  refine ⟨ha, ⟨?_, ?_⟩, hd, ⟨?_, ?_⟩, hz, ⟨?_, ?_⟩, rfl⟩
  · rw [ha]; exact mul_nonneg (by positivity) h₁.1
  · rw [ha]; nlinarith [mul_pos Real.pi_pos (sub_pos.mpr h₁.2)]
  · rw [hd]; nlinarith [h₂.1]
  · rw [hd]; nlinarith [h₂.2]
  · rw [hz]; nlinarith [h₃.1]
  · rw [hz]; nlinarith [h₃.2]

/-- Witness for C7 at the star `⟨0, 0, 0.1, 5⟩` with all three draws `0`. -/
theorem C7_reset_ranges_w :
    ((0 : ℝ) ≤ 0 ∧ (0 : ℝ) < 1) ∧
    ((Star.mk 0 0 0.1 5).reset 0 0 0).base_idx = 5 := by
  refine ⟨⟨le_refl 0, by norm_num⟩, ?_⟩
  exact (C7_reset_ranges (Star.mk 0 0 0.1 5) 0 0 0 ⟨le_refl 0, by norm_num⟩
    ⟨le_refl 0, by norm_num⟩ ⟨le_refl 0, by norm_num⟩).2.2.2.2.2.2

/-- C8: `computeCenter` is exactly
`(originX + distance·cos(angle), originY + distance·sin(angle))`, a pure
function of the star's current state, and at `angle = 0`, `distance = 10`,
origin `(100, 100)` it returns exactly `(110, 100)`. -/
theorem C8_computeCenter (s : Star) (x0 y0 : ℝ) :
    s.computeCenter x0 y0 =
      (x0 + s.distance * Real.cos s.angle, y0 + s.distance * Real.sin s.angle) ∧
    Star.computeCenter (Star.mk 0 10 0.05 0) 100 100 = (110, 100) := by
  refine ⟨rfl, ?_⟩
  simp only [Star.computeCenter, Real.cos_zero, Real.sin_zero, Prod.mk.injEq]
  norm_num

/-- C1: in every `update_glsl` call the per-star advance first multiplies
`distance` by `(2*dt + 1)` and adds `0.25*dt` to `size`, both before the
boundary check and for every star including ones subsequently reset: the
resulting star at position `m` is the grown star, reset exactly when the
grown (pre-reset) distance `D0*(2*dt+1)` exceeds `maxDistance`; at `dt = 0`
the grown distance equals the old distance. -/
theorem C1_growth_law (sf : Starfield) (nap x0 y0 : ℝ) (rnd : ℕ → ℝ × ℝ × ℝ)
    (m : ℕ) (s : Star) (hm : sf.stars[m]? = some s) :
    (s.grow nap).distance = s.distance * (2 * nap + 1) ∧
    (s.grow nap).size = s.size + 0.25 * nap ∧
    (s.grow 0).distance = s.distance ∧
    (sf.update_glsl nap x0 y0 rnd).stars[m]? =
      some (if (s.grow nap).distance > 1.1 * max x0 y0 then
              (s.grow nap).reset (rnd m).1 (rnd m).2.1 (rnd m).2.2
            else s.grow nap) := by
  refine ⟨rfl, rfl, by simp [Star.grow], ?_⟩
  rw [update_glsl_stars_getElem?, hm]
  rfl

/-- Witness for C1 on a one-star field with `distance = 60`, `dt = 0`. -/
theorem C1_growth_law_w :
    (Starfield.mk (mkVertices 1) (mkIndices 1) [Star.mk 0 60 0.1 0]).stars[0]? =
      some (Star.mk 0 60 0.1 0) ∧
    ((Star.mk 0 60 0.1 0).grow 0).distance = 60 * (2 * 0 + 1) :=
  ⟨rfl, (C1_growth_law (Starfield.mk (mkVertices 1) (mkIndices 1)
    [Star.mk 0 60 0.1 0]) 0 50 50 (fun _ => (0, 0, 0)) 0 (Star.mk 0 60 0.1 0)
    rfl).1⟩

/-- C3: `maxDistance = 1.1 * max x0 y0` is computed once from the origin
sampled in the call and shared by all stars, and every star whose
post-growth distance does not exceed it gets the triple
`(x, y, size)` — with `(x, y)` its computed center — written to all 4 of its
stride-spaced dynamic slots in that call. -/
theorem C3_shared_max_write (sf : Starfield) (nap x0 y0 : ℝ)
    (rnd : ℕ → ℝ × ℝ × ℝ) (hwf : WellFormed sf) (m : ℕ) (s : Star)
    (hm : sf.stars[m]? = some s)
    (hle : (s.grow nap).distance ≤ 1.1 * max x0 y0) (kk : ℕ) (hkk : kk < 4) :
    (sf.update_glsl nap x0 y0 rnd).vertices[s.base_idx + kk * vsize]? =
        some ((s.grow nap).computeCenter x0 y0).1 ∧
    (sf.update_glsl nap x0 y0 rnd).vertices[s.base_idx + kk * vsize + 1]? =
        some ((s.grow nap).computeCenter x0 y0).2 ∧
    (sf.update_glsl nap x0 y0 rnd).vertices[s.base_idx + kk * vsize + 2]? =
        some (s.grow nap).size :=
  update_glsl_slot sf nap x0 y0 rnd hwf m s hm (not_lt.mpr hle) kk hkk

/-- Witness for C3 on a one-star field with `distance = 40 ≤ 55`, `dt = 0`. -/
theorem C3_shared_max_write_w :
    WellFormed (Starfield.mk (mkVertices 1) (mkIndices 1) [Star.mk 0 40 0.1 0]) ∧
    ((Star.mk 0 40 0.1 0).grow 0).distance ≤ 1.1 * max 50 50 ∧
    ((Starfield.mk (mkVertices 1) (mkIndices 1)
        [Star.mk 0 40 0.1 0]).update_glsl 0 50 50
        (fun _ => (0, 0, 0))).vertices[(Star.mk 0 40 0.1 0).base_idx + 0 * vsize]? =
      some (((Star.mk 0 40 0.1 0).grow 0).computeCenter 50 50).1 := by
  have hwf := wf_single (Star.mk 0 40 0.1 0) rfl
  have hle : ((Star.mk 0 40 0.1 0).grow 0).distance ≤ 1.1 * max (50 : ℝ) 50 := by
    norm_num [Star.grow]
  exact ⟨hwf, hle, (C3_shared_max_write _ 0 50 50 (fun _ => (0, 0, 0)) hwf 0 _
    rfl hle 0 (by norm_num)).1⟩

/-- C9: a field with one particle forced to `angle = π/2`, `distance = 40`,
`size = 0.1`, origin `(50, 50)`: one update with `dt = 0` leaves the dynamic
triple at all 4 of its slots equal to `(50, 90, 0.1)`. -/
theorem C9_end_to_end (rnd : ℕ → ℝ × ℝ × ℝ) (kk : ℕ) (hkk : kk < 4) :
    (sf9.update_glsl 0 50 50 rnd).vertices[kk * vsize]? = some 50 ∧
    (sf9.update_glsl 0 50 50 rnd).vertices[kk * vsize + 1]? = some 90 ∧
    (sf9.update_glsl 0 50 50 rnd).vertices[kk * vsize + 2]? = some 0.1 := by
  have hwf : WellFormed sf9 := wf_single (Star.mk (Real.pi / 2) 40 0.1 0) rfl
  have hnr : ¬ ((Star.mk (Real.pi / 2) 40 0.1 0).grow 0).distance >
      1.1 * max (50 : ℝ) 50 := by
    norm_num [Star.grow]
  obtain ⟨h1, h2, h3⟩ := update_glsl_slot sf9 0 50 50 rnd hwf 0
    (Star.mk (Real.pi / 2) 40 0.1 0) rfl hnr kk hkk
  norm_num [Star.grow, Star.computeCenter, Real.cos_pi_div_two,
    Real.sin_pi_div_two] at h1 h2 h3
  refine ⟨h1, h2, ?_⟩
  rw [h3]
  norm_num

/-- Witness for C9 at the first slot (`kk = 0`). -/
theorem C9_end_to_end_w :
    (0 : ℕ) < 4 ∧
    (sf9.update_glsl 0 50 50 (fun _ => (0, 0, 0))).vertices[0 * vsize]? =
      some 50 :=
  ⟨by norm_num, (C9_end_to_end (fun _ => (0, 0, 0)) 0 (by norm_num)).1⟩

/-- C10: `update_glsl` re-samples the origin each call and rewrites every
non-reset star's slots from the freshly passed origin, so `dt = 0` is not a
no-op on the vertex list: a star with `distance ≤ 1.1 * max x0 y0` keeps its
logical state (`grow 0` is the identity on it) yet all 4 of its dynamic
triples are rewritten to `(x0 + d·cos a, y0 + d·sin a, size)` computed from
the origin of this call. -/
theorem C10_origin_resample (sf : Starfield) (x0 y0 : ℝ) (rnd : ℕ → ℝ × ℝ × ℝ)
    (hwf : WellFormed sf) (m : ℕ) (s : Star) (hm : sf.stars[m]? = some s)
    (hle : s.distance ≤ 1.1 * max x0 y0) :
    s.grow 0 = s ∧
    (sf.update_glsl 0 x0 y0 rnd).stars[m]? = some s ∧
    ∀ kk, kk < 4 →
      (sf.update_glsl 0 x0 y0 rnd).vertices[s.base_idx + kk * vsize]? =
          some (x0 + s.distance * Real.cos s.angle) ∧
      (sf.update_glsl 0 x0 y0 rnd).vertices[s.base_idx + kk * vsize + 1]? =
          some (y0 + s.distance * Real.sin s.angle) ∧
      (sf.update_glsl 0 x0 y0 rnd).vertices[s.base_idx + kk * vsize + 2]? =
          some s.size := by
  have hg : s.grow 0 = s := by
    cases s with
    | mk a d z b => simp [Star.grow]
  have hnr : ¬ (s.grow 0).distance > 1.1 * max x0 y0 := by
    rw [hg]; exact not_lt.mpr hle
  have hstep : stepStar 0 (1.1 * max x0 y0) (rnd m) s = s := by
    simp only [stepStar]
    rw [if_neg hnr, hg]
  refine ⟨hg, ?_, ?_⟩
  · rw [update_glsl_stars_getElem?, hm, Option.map_some', hstep]
  · intro kk hkk
    obtain ⟨h1, h2, h3⟩ := update_glsl_slot sf 0 x0 y0 rnd hwf m s hm hnr kk hkk
    rw [hg] at h1 h2 h3
    exact ⟨h1, h2, h3⟩

/-- Witness for C10 on a one-star field with `distance = 40 ≤ 55`. -/
theorem C10_origin_resample_w :
    WellFormed (Starfield.mk (mkVertices 1) (mkIndices 1) [Star.mk 0 40 0.1 0]) ∧
    (Star.mk 0 40 0.1 0).distance ≤ 1.1 * max 50 50 ∧
    (Star.mk 0 40 0.1 0).grow 0 = Star.mk 0 40 0.1 0 := by
  have hwf := wf_single (Star.mk 0 40 0.1 0) rfl
  have hle : (Star.mk 0 40 0.1 0).distance ≤ 1.1 * max (50 : ℝ) 50 := by
    norm_num
  exact ⟨hwf, hle,
    (C10_origin_resample _ 50 50 (fun _ => (0, 0, 0)) hwf 0 _ rfl hle).1⟩

/-- C2: a star whose post-growth distance exceeds `maxDistance` is reset —
its distance is re-drawn into `[10, 100)` with a fresh angle and size from
the draws — and none of its 4 vertex slots is written that frame: they keep
exactly their prior-frame values; the new randomized state first reaches the
buffer on a following update in which the star is not reset (one-frame lag). -/
theorem C2_reset_one_frame_lag (sf : Starfield) (nap x0 y0 : ℝ)
    (rnd : ℕ → ℝ × ℝ × ℝ) (hwf : WellFormed sf) (m : ℕ) (s : Star)
    (hm : sf.stars[m]? = some s)
    (hr : (s.grow nap).distance > 1.1 * max x0 y0)
    (hu : 0 ≤ (rnd m).2.1 ∧ (rnd m).2.1 < 1) :
    (sf.update_glsl nap x0 y0 rnd).stars[m]? =
      some ((s.grow nap).reset (rnd m).1 (rnd m).2.1 (rnd m).2.2) ∧
    (10 ≤ ((s.grow nap).reset (rnd m).1 (rnd m).2.1 (rnd m).2.2).distance ∧
      ((s.grow nap).reset (rnd m).1 (rnd m).2.1 (rnd m).2.2).distance < 100) ∧
    (∀ j, touchesIdx s j →
      (sf.update_glsl nap x0 y0 rnd).vertices[j]? = sf.vertices[j]?) ∧
    ∀ nap' x0' y0' rnd',
      ¬ ((((s.grow nap).reset (rnd m).1 (rnd m).2.1 (rnd m).2.2).grow nap').distance >
          1.1 * max x0' y0') →
      ∀ kk, kk < 4 →
        ((sf.update_glsl nap x0 y0 rnd).update_glsl nap' x0' y0' rnd').vertices[s.base_idx + kk * vsize]? =
            some ((((s.grow nap).reset (rnd m).1 (rnd m).2.1 (rnd m).2.2).grow nap').computeCenter x0' y0').1 ∧
        ((sf.update_glsl nap x0 y0 rnd).update_glsl nap' x0' y0' rnd').vertices[s.base_idx + kk * vsize + 1]? =
            some ((((s.grow nap).reset (rnd m).1 (rnd m).2.1 (rnd m).2.2).grow nap').computeCenter x0' y0').2 ∧
        ((sf.update_glsl nap x0 y0 rnd).update_glsl nap' x0' y0' rnd').vertices[s.base_idx + kk * vsize + 2]? =
            some (((s.grow nap).reset (rnd m).1 (rnd m).2.1 (rnd m).2.2).grow nap').size := by
  have hstep : (sf.update_glsl nap x0 y0 rnd).stars[m]? =
      some ((s.grow nap).reset (rnd m).1 (rnd m).2.1 (rnd m).2.2) := by
    rw [update_glsl_stars_getElem?, hm, Option.map_some']
    congr 1
    simp only [stepStar]
    rw [if_pos hr]
  have hdist : ((s.grow nap).reset (rnd m).1 (rnd m).2.1 (rnd m).2.2).distance =
      90 * (rnd m).2.1 + 10 := rfl
  refine ⟨hstep, ⟨?_, ?_⟩, ?_, ?_⟩
  · rw [hdist]; nlinarith [hu.1]
  · rw [hdist]; nlinarith [hu.2]
  · exact update_glsl_frozen sf nap x0 y0 rnd hwf m s hm hr
  · intro nap' x0' y0' rnd' hnr' kk hkk
    have hwf' := update_glsl_wf sf nap x0 y0 rnd hwf
    exact update_glsl_slot (sf.update_glsl nap x0 y0 rnd) nap' x0' y0' rnd'
      hwf' m ((s.grow nap).reset (rnd m).1 (rnd m).2.1 (rnd m).2.2)
      hstep hnr' kk hkk

/-- Witness for C2 on a one-star field with `distance = 60 > 55`, `dt = 0`,
all draws `0`. -/
theorem C2_reset_one_frame_lag_w :
    ((Star.mk 0 60 0.1 0).grow 0).distance > 1.1 * max 50 50 ∧
    ((0 : ℝ) ≤ 0 ∧ (0 : ℝ) < 1) ∧
    ((Starfield.mk (mkVertices 1) (mkIndices 1)
        [Star.mk 0 60 0.1 0]).update_glsl 0 50 50 (fun _ => (0, 0, 0))).stars[0]? =
      some (((Star.mk 0 60 0.1 0).grow 0).reset 0 0 0) := by
  have hr : ((Star.mk 0 60 0.1 0).grow 0).distance > 1.1 * max (50 : ℝ) 50 := by
    norm_num [Star.grow]
  have hwf := wf_single (Star.mk 0 60 0.1 0) rfl
  exact ⟨hr, ⟨le_refl 0, by norm_num⟩,
    (C2_reset_one_frame_lag _ 0 50 50 (fun _ => (0, 0, 0)) hwf 0
      (Star.mk 0 60 0.1 0) rfl hr ⟨le_refl 0, by norm_num⟩).1⟩

/-- C4: after any number `N ≥ 0` of update calls from construction, with any
per-frame parameters, the 4 static scalars of every vertex (offsets 3..6
within its stride-7 block: local corner offset pair and texture coordinate
pair) equal their construction-time values, and the vertex list keeps its
total length `4*P*vsize`: updates rewrite only the first 3 scalars of a
vertex. -/
theorem C4_static_immutable (P : ℕ) (rnd : ℕ → ℝ × ℝ × ℝ)
    (ps : ℕ → ℝ × ℝ × ℝ × (ℕ → ℝ × ℝ × ℝ)) (N : ℕ) :
    (iterUpdate (mkStarfield P rnd) ps N).vertices.length = 4 * P * vsize ∧
    ∀ j, 3 ≤ j % vsize →
      (iterUpdate (mkStarfield P rnd) ps N).vertices[j]? =
        (mkStarfield P rnd).vertices[j]? := by
  induction N with
  | zero => exact ⟨mkVertices_length P, fun j hj => rfl⟩
  | succ N ih =>
    have hstep : iterUpdate (mkStarfield P rnd) ps (N + 1) =
        (iterUpdate (mkStarfield P rnd) ps N).update_glsl (ps N).1 (ps N).2.1
          (ps N).2.2.1 (ps N).2.2.2 := rfl
    have hwfN := iterUpdate_wf (mkStarfield P rnd) ps N (mkStarfield_wf P rnd)
    constructor
    · rw [hstep, update_glsl_vertices_length]
      exact ih.1
    · intro j hj
      rw [hstep,
        update_glsl_static (iterUpdate (mkStarfield P rnd) ps N) (ps N).1
          (ps N).2.1 (ps N).2.2.1 (ps N).2.2.2 hwfN j hj]
      exact ih.2 j hj

/-- Witness for C4 at `P = 1`, one update frame, static offset `j = 3`. -/
theorem C4_static_immutable_w :
    3 ≤ 3 % vsize ∧
    (iterUpdate (mkStarfield 1 (fun _ => (0, 0, 0)))
        (fun _ => (0, 50, 50, fun _ => (0, 0, 0))) 1).vertices[3]? =
      (mkStarfield 1 (fun _ => (0, 0, 0))).vertices[3]? :=
  ⟨by decide,
    (C4_static_immutable 1 (fun _ => (0, 0, 0))
      (fun _ => (0, 50, 50, fun _ => (0, 0, 0))) 1).2 3 (by decide)⟩

end

end StarfieldApp
